import Mathlib

set_option linter.unusedVariables false

/-!
Shallow embedding of src/ilias_fuse/filesystem.py (ILIAS-FUSE).

The stream buffer (IliasHttpFile.Handle), the lazy directory
(IliasHttpDirectory.realize_folder), the node factory (_entry_to_node) and
the attribute probe (IliasHttpFile.getattr) are translated into executable
Lean definitions; the theorems below settle the specification claims about
them.
-/

namespace IliasFuse

/-- Bytes are modelled as natural numbers; the temporary file and each HTTP
chunk are lists of bytes. -/
abbrev Bytes := List Nat

/-- State of IliasHttpFile.Handle (filesystem.py, lines 160-192): the
spillable temporary file holding every byte pulled so far, the cursor
read_bytes, the remaining chunks of the streaming response
(response.iter_content), and the terminal read_all flag set when the
iterator raises StopIteration.  The pulls field is a ghost counter of
successful chunk pulls, added to state the pull-counting properties. -/
structure Handle where
  temp_file : Bytes
  read_bytes : Nat
  response_data : List Bytes
  read_all : Bool
  pulls : Nat
deriving Repr, DecidableEq

/-- Handle.__init__ (lines 165-170): empty temporary file, cursor 0, fresh
chunk iterator over the response, read_all false. -/
def Handle.init (response : List Bytes) : Handle :=
  { temp_file := [], read_bytes := 0, response_data := response,
    read_all := false, pulls := 0 }

/-- Handle._read_until (lines 180-188): while read_bytes <= position and not
read_all, pull the next chunk, append it to the end of the temporary file
and advance the cursor by its length; on StopIteration set read_all. -/
def read_until (h : Handle) (position : Nat) : Handle :=
  if h.read_bytes ≤ position ∧ h.read_all = false then
    match hc : h.response_data with
    | [] => { h with read_all := true }
    | c :: rest =>
        read_until { h with
                     temp_file := h.temp_file ++ c
                     read_bytes := h.read_bytes + c.length
                     response_data := rest
                     pulls := h.pulls + 1 } position
  else h
termination_by h.response_data.length
decreasing_by simp [hc]

/-- Handle.read (lines 172-178): if size + offset >= read_bytes, pull via
_read_until(size + offset); then seek the temporary file to offset and read
up to size bytes.  Returns the updated handle state and the bytes read. -/
def Handle.read (h : Handle) (size offset : Nat) : Handle × Bytes :=
  let h' := if h.read_bytes ≤ size + offset then read_until h (size + offset) else h
  (h', (h'.temp_file.drop offset).take size)

/-- Buffer invariant of a handle over reference content: the cursor equals
the length of the temporary file, the temporary file followed by the
unpulled chunks is exactly the reference content, and the exhausted flag
implies no chunks remain. -/
def inv (content : Bytes) (h : Handle) : Prop :=
  h.read_bytes = h.temp_file.length ∧
  h.temp_file ++ h.response_data.flatten = content ∧
  (h.read_all = true → h.response_data = [])

instance (content : Bytes) (h : Handle) : Decidable (inv content h) := by
  unfold inv; infer_instance

theorem read_until_guard_false (h : Handle) (position : Nat)
    (hg : ¬ (h.read_bytes ≤ position ∧ h.read_all = false)) :
    read_until h position = h := by
  rw [read_until, if_neg hg]

theorem read_until_spec (content : Bytes) (h : Handle) (position : Nat) :
    inv content h →
      inv content (read_until h position) ∧
      (position < (read_until h position).read_bytes ∨
        (read_until h position).read_all = true) := by
  induction h, position using read_until.induct with
  | case1 h pos hg hc =>
    intro hinv
    obtain ⟨h1, h2, h3⟩ := hinv
    rw [read_until, if_pos hg, hc]
    refine ⟨⟨h1, ?_, fun _ => rfl⟩, Or.inr rfl⟩
    simpa [hc] using h2
  | case2 h pos hg c rest hc ih =>
    intro hinv
    obtain ⟨h1, h2, h3⟩ := hinv
    rw [read_until, if_pos hg, hc]
    refine ih ⟨?_, ?_, ?_⟩
    · simp [h1]
    · rw [List.append_assoc]
      simpa [hc] using h2
    · intro hra
      have hT : h.read_all = true := by simpa using hra
      rw [hg.2] at hT
      exact absurd hT (by simp)
  | case3 h pos hg =>
    intro hinv
    rw [read_until_guard_false h pos hg]
    refine ⟨hinv, ?_⟩
    rcases Nat.lt_or_ge pos h.read_bytes with hlt | hge
    · exact Or.inl hlt
    · refine Or.inr ?_
      cases ht : h.read_all with
      | false => exact absurd ⟨hge, ht⟩ hg
      | true => rfl

theorem read_state_spec (content : Bytes) (h : Handle) (size offset : Nat)
    (hinv : inv content h) :
    inv content (h.read size offset).1 ∧
    (size + offset < (h.read size offset).1.read_bytes ∨
      (h.read size offset).1.read_all = true) := by
  unfold Handle.read
  by_cases hg : h.read_bytes ≤ size + offset
  · simp only [if_pos hg]
    exact read_until_spec content h (size + offset) hinv
  · simp only [if_neg hg]
    exact ⟨hinv, Or.inl (Nat.lt_of_not_le hg)⟩

theorem read_snd_def (h : Handle) (size offset : Nat) :
    (h.read size offset).2 =
      ((h.read size offset).1.temp_file.drop offset).take size := rfl

/-- From the invariant: the temporary file is the prefix of the reference
content of length read_bytes. -/
theorem inv_temp_eq_take (content : Bytes) (h : Handle) (hinv : inv content h) :
    h.temp_file = content.take h.read_bytes := by
  obtain ⟨h1, h2, _⟩ := hinv
  rw [h1, ← h2, List.take_left]

theorem inv_read_bytes_le (content : Bytes) (h : Handle) (hinv : inv content h) :
    h.read_bytes ≤ content.length := by
  obtain ⟨h1, h2, _⟩ := hinv
  rw [h1, ← h2]
  simp

/-- If the exhausted flag is set, the whole content sits in the store. -/
theorem inv_read_all_temp (content : Bytes) (h : Handle) (hinv : inv content h)
    (hra : h.read_all = true) : h.temp_file = content := by
  obtain ⟨h1, h2, h3⟩ := hinv
  rw [← h2, h3 hra]
  simp

theorem take_drop_take (l : Bytes) (offset size rb : Nat)
    (hle : offset + size ≤ rb) :
    ((l.take rb).drop offset).take size = (l.drop offset).take size := by
  rw [List.drop_take, List.take_take]
  congr 1
  omega

/-- After a read, the cursor is at least offset + size whenever the
requested range lies inside the reference content. -/
theorem read_cursor_ge (content : Bytes) (h : Handle) (size offset : Nat)
    (hinv : inv content h) (hbound : offset + size ≤ content.length) :
    offset + size ≤ (h.read size offset).1.read_bytes := by
  obtain ⟨hinv', hpost⟩ := read_state_spec content h size offset hinv
  rcases hpost with hlt | hra
  · omega
  · have := inv_read_all_temp content _ hinv' hra
    have hlen : (h.read size offset).1.read_bytes = content.length := by
      rw [hinv'.1, this]
    omega

/-- Claim C1: for an underlying sequential source delivered in chunks whose
concatenation is the reference content, and any offset and size with
offset + size within the content length, read(size, offset) on a handle
satisfying the buffer invariant returns exactly the reference bytes in
the interval from offset to offset + size, regardless of how earlier reads
drove the handle into its current state. -/
theorem read_random_access (content : Bytes) (h : Handle) (size offset : Nat)
    (hinv : inv content h) (hbound : offset + size ≤ content.length) :
    (h.read size offset).2 = (content.drop offset).take size := by
  have hspec := read_state_spec content h size offset hinv
  have hge := read_cursor_ge content h size offset hinv hbound
  rw [read_snd_def, inv_temp_eq_take content _ hspec.1]
  exact take_drop_take content offset size _ hge

/-- Witness for C1: on the content 10..14 delivered in chunks of two, the
read of two bytes at offset one returns exactly bytes one and two. -/
theorem read_random_access_witness :
    ((Handle.init [[10, 11], [12, 13], [14]]).read 2 1).2 =
      (([10, 11, 12, 13, 14] : Bytes).drop 1).take 2 :=
  read_random_access [10, 11, 12, 13, 14] (Handle.init [[10, 11], [12, 13], [14]])
    2 1 (by decide) (by decide)

/-- Claim C2: once the cursor has advanced strictly past a position P, a
read whose range lies entirely at or below P leaves the handle state
untouched: same cursor, same spillable store, same remaining chunks and
same pull count, so no chunk is pulled from the source. -/
theorem read_no_redundant_pulls (h : Handle) (size offset P : Nat)
    (hP : P < h.read_bytes) (hbelow : offset + size ≤ P) :
    (h.read size offset).1 = h := by
  unfold Handle.read
  have hg : ¬ (h.read_bytes ≤ size + offset) := by omega
  simp [hg]

/-- Witness for C2: a handle whose cursor is already at three is unchanged
by a read of two bytes at offset zero. -/
theorem read_no_redundant_pulls_witness :
    (Handle.read
        { temp_file := [10, 11, 12], read_bytes := 3,
          response_data := [[13, 14]], read_all := false, pulls := 2 }
        2 0).1 =
      { temp_file := [10, 11, 12], read_bytes := 3,
        response_data := [[13, 14]], read_all := false, pulls := 2 } :=
  read_no_redundant_pulls
    { temp_file := [10, 11, 12], read_bytes := 3,
      response_data := [[13, 14]], read_all := false, pulls := 2 }
    2 0 2 (by decide) (by decide)

/-- Counterexample for C3: on a fresh handle over a one-chunk source, a
zero-size read at offset zero does return the empty byte string, but it
pulls a chunk from the source (the pull counter moves from zero to one),
because read triggers _read_until whenever size + offset is at least the
cursor. -/
theorem read_size_zero_counterexample :
    ((Handle.init [[7]]).read 0 0).2 = [] ∧
    ((Handle.init [[7]]).read 0 0).1.pulls = 1 := by
  constructor
  · rw [read_snd_def]
    simp
  · simp [Handle.read, Handle.init, read_until]

/-- Claim C3 as amended: read(offset, 0) always returns an empty byte
result; it pulls no chunks provided the cursor has already advanced
strictly past offset, while a zero-size read at or beyond the cursor may
still pull chunks. -/
theorem read_size_zero (h : Handle) (offset : Nat) :
    (h.read 0 offset).2 = [] ∧
    (offset < h.read_bytes → (h.read 0 offset).1 = h) := by
  constructor
  · rw [read_snd_def]
    simp
  · intro hoff
    unfold Handle.read
    have hg : ¬ (h.read_bytes ≤ 0 + offset) := by omega
    rw [if_neg hg]

/-- Witness for C3 as amended: on a handle with cursor three, a zero-size
read at offset one returns the empty result and leaves the state unchanged. -/
theorem read_size_zero_witness :
    (Handle.read
        { temp_file := [10, 11, 12], read_bytes := 3,
          response_data := [[13, 14]], read_all := false, pulls := 2 }
        0 1).2 = [] ∧
    (Handle.read
        { temp_file := [10, 11, 12], read_bytes := 3,
          response_data := [[13, 14]], read_all := false, pulls := 2 }
        0 1).1 =
      { temp_file := [10, 11, 12], read_bytes := 3,
        response_data := [[13, 14]], read_all := false, pulls := 2 } :=
  ⟨(read_size_zero
      { temp_file := [10, 11, 12], read_bytes := 3,
        response_data := [[13, 14]], read_all := false, pulls := 2 } 1).1,
   (read_size_zero
      { temp_file := [10, 11, 12], read_bytes := 3,
        response_data := [[13, 14]], read_all := false, pulls := 2 } 1).2
     (by decide)⟩

/-- Claim C5: on an N-byte source, a read at an offset at or beyond N
returns an empty result, and a read starting below N whose requested range
crosses N returns exactly the final N - offset bytes; the short read is an
ordinary return value, not an error. -/
theorem read_eof (content : Bytes) (h : Handle) (size offset : Nat)
    (hinv : inv content h) :
    (content.length ≤ offset → (h.read size offset).2 = []) ∧
    (offset < content.length → content.length ≤ offset + size →
      (h.read size offset).2 = content.drop offset) := by
  have hspec := read_state_spec content h size offset hinv
  constructor
  · intro hoff
    rw [read_snd_def]
    have hlen : (h.read size offset).1.temp_file.length ≤ content.length := by
      have hle := inv_read_bytes_le content _ hspec.1
      have h1 := hspec.1.1
      omega
    rw [List.drop_eq_nil_of_le (Nat.le_trans hlen hoff)]
    simp
  · intro hoff hcross
    rcases hspec.2 with hlt | hra
    · have hle := inv_read_bytes_le content _ hspec.1
      omega
    · have htemp := inv_read_all_temp content _ hspec.1 hra
      rw [read_snd_def, htemp]
      refine List.take_of_length_le ?_
      rw [List.length_drop]
      omega

/-- Witness for C5: on the five-byte content 10..14, a ten-byte read at
offset five returns nothing, and a ten-byte read at offset zero returns
the whole remaining content. -/
theorem read_eof_witness :
    ((Handle.init [[10, 11], [12, 13], [14]]).read 10 5).2 = [] ∧
    ((Handle.init [[10, 11], [12, 13], [14]]).read 10 0).2 =
      ([10, 11, 12, 13, 14] : Bytes).drop 0 :=
  ⟨(read_eof [10, 11, 12, 13, 14] (Handle.init [[10, 11], [12, 13], [14]])
      10 5 (by decide)).1 (by decide),
   (read_eof [10, 11, 12, 13, 14] (Handle.init [[10, 11], [12, 13], [14]])
      10 0 (by decide)).2 (by decide) (by decide)⟩

/-- Claim C9: every read preserves the buffer invariant, so the spillable
store holds exactly the first cursor-many bytes of the reference content;
and once the exhausted flag is set, a read leaves the whole handle state
unchanged, so the flag is never cleared and no further chunk is ever
pulled. -/
theorem read_preserves_invariant (content : Bytes) (h : Handle) (size offset : Nat)
    (hinv : inv content h) :
    inv content (h.read size offset).1 ∧
    (h.read size offset).1.temp_file =
      content.take (h.read size offset).1.read_bytes ∧
    (h.read_all = true → (h.read size offset).1 = h) := by
  have hspec := read_state_spec content h size offset hinv
  refine ⟨hspec.1, inv_temp_eq_take content _ hspec.1, ?_⟩
  intro hra
  unfold Handle.read
  by_cases hg : h.read_bytes ≤ size + offset
  · simp only [if_pos hg]
    exact read_until_guard_false h _ (by simp [hra])
  · simp [if_neg hg]

/-- Witness for C9: a concrete exhausted handle over the two-byte content
10, 11 satisfies the preserved invariant statement for a read of four
bytes at offset one. -/
theorem read_preserves_invariant_witness :
    inv [10, 11]
      (Handle.read
        { temp_file := [10, 11], read_bytes := 2,
          response_data := [], read_all := true, pulls := 1 } 4 1).1 ∧
    (Handle.read
        { temp_file := [10, 11], read_bytes := 2,
          response_data := [], read_all := true, pulls := 1 } 4 1).1.temp_file =
      ([10, 11] : Bytes).take
        (Handle.read
          { temp_file := [10, 11], read_bytes := 2,
            response_data := [], read_all := true, pulls := 1 } 4 1).1.read_bytes ∧
    (({ temp_file := [10, 11], read_bytes := 2,
        response_data := [], read_all := true, pulls := 1 } : Handle).read_all = true →
      (Handle.read
        { temp_file := [10, 11], read_bytes := 2,
          response_data := [], read_all := true, pulls := 1 } 4 1).1 =
        { temp_file := [10, 11], read_bytes := 2,
          response_data := [], read_all := true, pulls := 1 }) :=
  read_preserves_invariant [10, 11]
    { temp_file := [10, 11], read_bytes := 2,
      response_data := [], read_all := true, pulls := 1 } 4 1 (by decide)

/-- IliasElementType (imported from PFERD.ilias.crawler): the categorical
kinds of a listing entry that filesystem.py branches on. -/
inductive IliasElementType where
  | REGULAR_FOLDER
  | VIDEO_FOLDER
  | EXERCISE_FOLDER
  | REGULAR_FILE
  | VIDEO_FILE
  | FORUM
  | EXTERNAL_LINK
deriving Repr, DecidableEq

/-- IliasCrawlerEntry as consumed by filesystem.py: the path segment
(entry.path.name), the categorical kind (entry.entry_type), the locator
(entry.url()) and the modification date carried into the download info. -/
structure IliasCrawlerEntry where
  name : String
  entry_type : IliasElementType
  url : String
  mod_date : Int
deriving Repr, DecidableEq

/-- IliasDownloadInfo as consumed by IliasHttpFile: locator and
modification date. -/
structure IliasDownloadInfo where
  url : String
  modification_date : Int
deriving Repr, DecidableEq

/-- IliasCrawlerEntry.to_download_info as used on file entries. -/
def to_download_info (entry : IliasCrawlerEntry) : IliasDownloadInfo :=
  { url := entry.url, modification_date := entry.mod_date }

/-- The closed set of node variants produced by _entry_to_node (lines
84-102): OwnedFile is the static read-only text file (fusetree.BlobFile)
whose data is the UTF-8 encoding of the locator string, HttpFile is the
remote file node IliasHttpFile over the entry's download descriptor, and
HttpDirectory is the lazy directory IliasHttpDirectory over the entry,
created with an empty child table. -/
inductive Node where
  | OwnedFile (data : String)
  | HttpFile (info : IliasDownloadInfo)
  | HttpDirectory (entry : IliasCrawlerEntry)
deriving Repr, DecidableEq

/-- _entry_to_node (lines 84-102): the node factory. -/
def entry_to_node (entry : IliasCrawlerEntry) : Node :=
  if entry.entry_type = IliasElementType.FORUM then
    Node.OwnedFile entry.url
  else if entry.entry_type = IliasElementType.EXTERNAL_LINK then
    Node.OwnedFile entry.url
  else if entry.entry_type = IliasElementType.REGULAR_FILE then
    Node.HttpFile (to_download_info entry)
  else if entry.entry_type = IliasElementType.VIDEO_FILE then
    Node.HttpFile (to_download_info entry)
  else
    Node.HttpDirectory entry

/-- The display-name computation of realize_folder (lines 73-79): forum
entries get the prefix "Forum - ", external links get "Link - ", all other
kinds keep the entry's own path segment. -/
def display_name (entry : IliasCrawlerEntry) : String :=
  if entry.entry_type = IliasElementType.FORUM then
    "Forum - " ++ entry.name
  else if entry.entry_type = IliasElementType.EXTERNAL_LINK then
    "Link - " ++ entry.name
  else
    entry.name

/-- Python dict assignment self.contents[name] = node on an
insertion-ordered table: an existing key is overwritten in place, a new
key is appended at the end. -/
def dict_insert (contents : List (String × Node)) (key : String) (node : Node) :
    List (String × Node) :=
  match contents with
  | [] => [(key, node)]
  | (k, v) :: rest =>
      if k = key then (key, node) :: rest
      else (k, v) :: dict_insert rest key node

/-- The Content Source as used by realize_folder: the three enumeration
calls of IliasCrawler, each returning an ordered listing or an enumeration
failure.  The crawler is deterministic: repeated calls return the same
result. -/
structure IliasCrawler where
  crawl_video_directory : Except String (List IliasCrawlerEntry)
  crawl_exercises : Except String (List IliasCrawlerEntry)
  crawl_folder : Except String (List IliasCrawlerEntry)

/-- Mutable state of an IliasHttpDirectory node: the entry it represents
and its child table (fusetree.DictDir contents), empty until realized. -/
structure IliasHttpDirectory where
  entry : IliasCrawlerEntry
  contents : List (String × Node)
deriving Repr, DecidableEq

/-- The branch of realize_folder (lines 66-71) selecting the enumeration
call by folder kind: video folders use _crawl_video_directory, exercise
folders use _crawl_exercises, everything else uses _crawl_folder. -/
def select_crawl (crawler : IliasCrawler) (entry : IliasCrawlerEntry) :
    Except String (List IliasCrawlerEntry) :=
  if entry.entry_type = IliasElementType.VIDEO_FOLDER then
    crawler.crawl_video_directory
  else if entry.entry_type = IliasElementType.EXERCISE_FOLDER then
    crawler.crawl_exercises
  else
    crawler.crawl_folder

/-- Outcome of one realize_folder call: whether it returned normally (ok)
or propagated an enumeration failure, the directory state afterwards, and
a ghost count of enumeration calls performed by this call. -/
structure RealizeResult where
  ok : Bool
  state : IliasHttpDirectory
  calls : Nat
deriving Repr, DecidableEq

/-- IliasHttpDirectory.realize_folder (lines 56-81): a no-op when the
child table is non-empty; otherwise one enumeration call, and on success
each listed entry is inserted under its display name via the node
factory.  On failure the exception propagates before any insertion. -/
def realize_folder (crawler : IliasCrawler) (d : IliasHttpDirectory) :
    RealizeResult :=
  if d.contents.length > 0 then
    { ok := true, state := d, calls := 0 }
  else
    match select_crawl crawler d.entry with
    | Except.error _ => { ok := false, state := d, calls := 1 }
    | Except.ok entries =>
        { ok := true
          state := { d with
                     contents := entries.foldl
                                   (fun acc entry =>
                                     dict_insert acc (display_name entry)
                                       (entry_to_node entry))
                                   d.contents }
          calls := 1 }

/-- IliasHttpDirectory.lookup (lines 48-50): realize the folder, then look
the name up in the child table; an enumeration failure propagates, so no
child is produced in that case. -/
def lookup (crawler : IliasCrawler) (d : IliasHttpDirectory) (name : String) :
    RealizeResult × Option Node :=
  let r := realize_folder crawler d
  (r,
   if r.ok then (r.state.contents.find? (fun p => p.1 == name)).map (fun p => p.2)
   else none)

theorem dict_insert_ne_nil (contents : List (String × Node)) (key : String)
    (node : Node) : dict_insert contents key node ≠ [] := by
  cases contents with
  | nil => simp [dict_insert]
  | cons p rest =>
    obtain ⟨k, v⟩ := p
    simp only [dict_insert]
    split <;> simp

theorem foldl_dict_insert_ne_nil (entries : List IliasCrawlerEntry) :
    ∀ acc : List (String × Node), acc ≠ [] →
      entries.foldl (fun acc entry =>
        dict_insert acc (display_name entry) (entry_to_node entry)) acc ≠ [] := by
  induction entries with
  | nil =>
    intro acc h
    simpa using h
  | cons e rest ih =>
    intro acc h
    simp only [List.foldl_cons]
    exact ih _ (dict_insert_ne_nil _ _ _)

theorem foldl_dict_insert_of_ne_nil (entries : List IliasCrawlerEntry)
    (hne : entries ≠ []) :
    entries.foldl (fun acc entry =>
      dict_insert acc (display_name entry) (entry_to_node entry)) [] ≠ [] := by
  cases entries with
  | nil => exact absurd rfl hne
  | cons e rest =>
    simp only [List.foldl_cons]
    exact foldl_dict_insert_ne_nil rest _ (dict_insert_ne_nil _ _ _)

theorem realize_folder_noop (crawler : IliasCrawler) (d : IliasHttpDirectory)
    (h : d.contents ≠ []) :
    realize_folder crawler d = { ok := true, state := d, calls := 0 } := by
  unfold realize_folder
  rw [if_pos (List.length_pos.mpr h)]

/-- Directory entry for the C4 counterexample scenario: a generic folder. -/
def dir_empty : IliasHttpDirectory :=
  { entry := { name := "course", entry_type := IliasElementType.REGULAR_FOLDER,
               url := "https://ilias.example/goto.php", mod_date := 0 }
    contents := [] }

/-- Content source for the C4 counterexample scenario: every enumeration
succeeds with the empty listing. -/
def crawler_empty : IliasCrawler :=
  { crawl_video_directory := Except.ok []
    crawl_exercises := Except.ok []
    crawl_folder := Except.ok [] }

/-- Counterexample for C4: with a content source whose listing is empty,
the first realization succeeds and leaves the child table empty, and a
second realize call performs another enumeration call (its call count is
one, not zero), because realize_folder treats an empty child table as
meaning unrealized. -/
theorem realize_folder_idempotent_counterexample :
    (realize_folder crawler_empty dir_empty).ok = true ∧
    (realize_folder crawler_empty dir_empty).state.contents = [] ∧
    (realize_folder crawler_empty
      (realize_folder crawler_empty dir_empty).state).calls = 1 :=
  ⟨rfl, rfl, rfl⟩

/-- Claim C4 as amended: after a first successful realization whose
listing was non-empty, every further realize call (and the realize step
of every further lookup) performs no enumeration call and leaves the
directory state, in particular the child table, unchanged; a successful
realization with an empty listing instead leaves the node unrealized, so
a later access enumerates again. -/
theorem realize_folder_idempotent (crawler crawler2 : IliasCrawler)
    (d : IliasHttpDirectory) (entries : List IliasCrawlerEntry)
    (hempty : d.contents = [])
    (hcrawl : select_crawl crawler d.entry = Except.ok entries)
    (hne : entries ≠ []) :
    (realize_folder crawler d).ok = true ∧
    (realize_folder crawler d).calls = 1 ∧
    realize_folder crawler2 (realize_folder crawler d).state =
      { ok := true, state := (realize_folder crawler d).state, calls := 0 } ∧
    (∀ nm : String,
      (lookup crawler2 (realize_folder crawler d).state nm).1 =
        { ok := true, state := (realize_folder crawler d).state, calls := 0 }) := by
  have hcont : (realize_folder crawler d).state.contents =
      entries.foldl (fun acc entry =>
        dict_insert acc (display_name entry) (entry_to_node entry)) [] := by
    unfold realize_folder
    rw [hcrawl]
    simp [hempty]
  have hne' : (realize_folder crawler d).state.contents ≠ [] := by
    rw [hcont]
    exact foldl_dict_insert_of_ne_nil entries hne
  have hnoop := realize_folder_noop crawler2 _ hne'
  refine ⟨?_, ?_, hnoop, ?_⟩
  · unfold realize_folder
    rw [hcrawl]
    simp [hempty]
  · unfold realize_folder
    rw [hcrawl]
    simp [hempty]
  · intro nm
    unfold lookup
    rw [hnoop]

/-- Entry listed by the content source in the C4 witness scenario. -/
def entry_file_w : IliasCrawlerEntry :=
  { name := "notes.pdf", entry_type := IliasElementType.REGULAR_FILE,
    url := "https://ilias.example/file.pdf", mod_date := 5 }

/-- Directory for the C4 witness scenario. -/
def dir_one : IliasHttpDirectory :=
  { entry := { name := "course", entry_type := IliasElementType.REGULAR_FOLDER,
               url := "https://ilias.example/goto.php", mod_date := 0 }
    contents := [] }

/-- Content source for the C4 witness scenario: one file entry. -/
def crawler_one : IliasCrawler :=
  { crawl_video_directory := Except.ok [entry_file_w]
    crawl_exercises := Except.ok [entry_file_w]
    crawl_folder := Except.ok [entry_file_w] }

/-- Witness for C4 as amended: a one-entry listing realizes once, and the
second realize call and a lookup both perform no enumeration call. -/
theorem realize_folder_idempotent_witness :
    (realize_folder crawler_one dir_one).ok = true ∧
    (realize_folder crawler_one dir_one).calls = 1 ∧
    realize_folder crawler_one (realize_folder crawler_one dir_one).state =
      { ok := true, state := (realize_folder crawler_one dir_one).state,
        calls := 0 } ∧
    (lookup crawler_one (realize_folder crawler_one dir_one).state
        "notes.pdf").1 =
      { ok := true, state := (realize_folder crawler_one dir_one).state,
        calls := 0 } := by
  have h := realize_folder_idempotent crawler_one crawler_one dir_one
    [entry_file_w] rfl rfl (by simp)
  exact ⟨h.1, h.2.1, h.2.2.1, h.2.2.2 "notes.pdf"⟩

/-- Claim C6: the node factory maps forum and external-link entries to a
static read-only text file whose content is the entry's locator string,
regular file and video (streamable media) entries to a remote file node
over the entry's download descriptor, and every folder kind to a lazy
directory node over the entry; being a total function it returns exactly
one node per entry. -/
theorem entry_to_node_mapping (entry : IliasCrawlerEntry) :
    ((entry.entry_type = IliasElementType.FORUM ∨
      entry.entry_type = IliasElementType.EXTERNAL_LINK) →
      entry_to_node entry = Node.OwnedFile entry.url) ∧
    ((entry.entry_type = IliasElementType.REGULAR_FILE ∨
      entry.entry_type = IliasElementType.VIDEO_FILE) →
      entry_to_node entry = Node.HttpFile (to_download_info entry)) ∧
    ((entry.entry_type = IliasElementType.REGULAR_FOLDER ∨
      entry.entry_type = IliasElementType.VIDEO_FOLDER ∨
      entry.entry_type = IliasElementType.EXERCISE_FOLDER) →
      entry_to_node entry = Node.HttpDirectory entry) := by
  cases h : entry.entry_type <;> simp [entry_to_node, h]

/-- Witness for C6: a concrete forum entry becomes the static text file
holding its locator. -/
theorem entry_to_node_mapping_witness :
    entry_to_node
        { name := "Questions", entry_type := IliasElementType.FORUM,
          url := "https://ilias.example/forum", mod_date := 0 } =
      Node.OwnedFile "https://ilias.example/forum" :=
  (entry_to_node_mapping
    { name := "Questions", entry_type := IliasElementType.FORUM,
      url := "https://ilias.example/forum", mod_date := 0 }).1 (Or.inl rfl)

/-- Claim C7: the child-table key computed during realization prepends
"Forum - " to the path segment for forum entries, "Link - " for external
links, and is the unmodified path segment for every other kind. -/
theorem display_name_mapping (entry : IliasCrawlerEntry) :
    (entry.entry_type = IliasElementType.FORUM →
      display_name entry = "Forum - " ++ entry.name) ∧
    (entry.entry_type = IliasElementType.EXTERNAL_LINK →
      display_name entry = "Link - " ++ entry.name) ∧
    (entry.entry_type ≠ IliasElementType.FORUM →
      entry.entry_type ≠ IliasElementType.EXTERNAL_LINK →
      display_name entry = entry.name) := by
  refine ⟨fun h => ?_, fun h => ?_, fun h1 h2 => ?_⟩
  · simp [display_name, h]
  · simp [display_name, h]
  · simp [display_name, h1, h2]

/-- Witness for C7: a concrete external-link entry named Homepage gets
the child key Link - Homepage. -/
theorem display_name_mapping_witness :
    display_name
        { name := "Homepage", entry_type := IliasElementType.EXTERNAL_LINK,
          url := "https://example.org", mod_date := 0 } =
      "Link - " ++ "Homepage" :=
  (display_name_mapping
    { name := "Homepage", entry_type := IliasElementType.EXTERNAL_LINK,
      url := "https://example.org", mod_date := 0 }).2.1 rfl

/-- Claim C8: on an unrealized directory, an enumeration failure
propagates to the caller (the realize result is not ok), the directory
state and so the child table are exactly as before with no partial
inserts, and since the table is still empty a later realize call against
any content source performs the enumeration call again. -/
theorem realize_folder_failure (crawler : IliasCrawler) (d : IliasHttpDirectory)
    (msg : String) (hempty : d.contents = [])
    (hcrawl : select_crawl crawler d.entry = Except.error msg) :
    realize_folder crawler d = { ok := false, state := d, calls := 1 } ∧
    (∀ crawler2 : IliasCrawler,
      (realize_folder crawler2 (realize_folder crawler d).state).calls = 1) := by
  have hr : realize_folder crawler d = { ok := false, state := d, calls := 1 } := by
    unfold realize_folder
    rw [hcrawl]
    simp [hempty]
  refine ⟨hr, fun crawler2 => ?_⟩
  rw [hr]
  unfold realize_folder
  rw [if_neg (by simp [hempty])]
  cases hsel : select_crawl crawler2 d.entry <;> rfl

/-- Directory for the C8 witness scenario. -/
def dir_fail : IliasHttpDirectory :=
  { entry := { name := "course", entry_type := IliasElementType.VIDEO_FOLDER,
               url := "https://ilias.example/video", mod_date := 0 }
    contents := [] }

/-- Content source for the C8 witness scenario: every enumeration fails. -/
def crawler_fail : IliasCrawler :=
  { crawl_video_directory := Except.error "enumeration failed"
    crawl_exercises := Except.error "enumeration failed"
    crawl_folder := Except.error "enumeration failed" }

/-- Witness for C8: a failing video-folder enumeration propagates, leaves
the directory unchanged, and the retry enumerates again. -/
theorem realize_folder_failure_witness :
    realize_folder crawler_fail dir_fail =
      { ok := false, state := dir_fail, calls := 1 } ∧
    (realize_folder crawler_fail
      (realize_folder crawler_fail dir_fail).state).calls = 1 :=
  ⟨(realize_folder_failure crawler_fail dir_fail "enumeration failed" rfl rfl).1,
   (realize_folder_failure crawler_fail dir_fail "enumeration failed" rfl rfl).2
     crawler_fail⟩

/-- State of an IliasHttpFile node (lines 129-133): the download
descriptor and the cached size, None until the first getattr. -/
structure IliasHttpFile where
  info : IliasDownloadInfo
  size : Option Nat
deriving Repr, DecidableEq

/-- Response of the HEAD probe (session.head): the optional Content-Length
header value. -/
structure HeadResponse where
  content_length : Option Nat
deriving Repr, DecidableEq

/-- The fields of the Stat built by IliasHttpFile.getattr that the size
probe claim is about.  The block count ceil(size / 512) is modelled as
exact natural ceiling division. -/
structure FileStat where
  st_size : Nat
  st_blocks : Nat
  st_mtime : Int
deriving Repr, DecidableEq

/-- IliasHttpFile.getattr (lines 135-153): when size is still unknown,
issue one HEAD request and cache the Content-Length value, or zero when
the header is absent; then build the Stat from the cached size.  Returns
the updated node, the Stat, and the number of HEAD requests performed by
this call. -/
def getattr (head : HeadResponse) (f : IliasHttpFile) :
    IliasHttpFile × FileStat × Nat :=
  match f.size with
  | some s =>
      (f,
       { st_size := s, st_blocks := (s + 511) / 512,
         st_mtime := f.info.modification_date },
       0)
  | none =>
      let s :=
        match head.content_length with
        | some n => n
        | none => 0
      ({ f with size := some s },
       { st_size := s, st_blocks := (s + 511) / 512,
         st_mtime := f.info.modification_date },
       1)

/-- Claim C10: the HEAD probe runs at most once per node: the first
getattr on a node with unknown size performs exactly one HEAD request and
caches the Content-Length value (permanently zero when the header is
absent); a later getattr, even against a different HEAD responder,
performs no request, leaves the node unchanged and returns the same Stat,
whose size is the cached value and whose block count is the ceiling of
size over 512. -/
theorem getattr_probe_once (head head2 : HeadResponse) (f : IliasHttpFile)
    (hsize : f.size = none) :
    (getattr head f).2.2 = 1 ∧
    (getattr head f).1.size = some (head.content_length.getD 0) ∧
    (getattr head f).2.1.st_size = head.content_length.getD 0 ∧
    (getattr head f).2.1.st_blocks = (head.content_length.getD 0 + 511) / 512 ∧
    getattr head2 (getattr head f).1 =
      ((getattr head f).1, (getattr head f).2.1, 0) := by
  cases hcl : head.content_length with
  | none => simp [getattr, hsize, hcl]
  | some n => simp [getattr, hsize, hcl]

/-- Witness for C10: a node probed once with Content-Length 1024 caches
size 1024, reports two 512-byte blocks, and the second getattr performs
no request. -/
theorem getattr_probe_once_witness :
    (getattr { content_length := some 1024 }
        { info := { url := "https://ilias.example/file.pdf",
                    modification_date := 7 }, size := none }).2.2 = 1 ∧
    (getattr { content_length := some 1024 }
        { info := { url := "https://ilias.example/file.pdf",
                    modification_date := 7 }, size := none }).1.size =
      some ((some 1024 : Option Nat).getD 0) ∧
    (getattr { content_length := some 1024 }
        { info := { url := "https://ilias.example/file.pdf",
                    modification_date := 7 }, size := none }).2.1.st_size =
      (some 1024 : Option Nat).getD 0 ∧
    (getattr { content_length := some 1024 }
        { info := { url := "https://ilias.example/file.pdf",
                    modification_date := 7 }, size := none }).2.1.st_blocks =
      ((some 1024 : Option Nat).getD 0 + 511) / 512 ∧
    getattr { content_length := none }
        (getattr { content_length := some 1024 }
          { info := { url := "https://ilias.example/file.pdf",
                      modification_date := 7 }, size := none }).1 =
      ((getattr { content_length := some 1024 }
          { info := { url := "https://ilias.example/file.pdf",
                      modification_date := 7 }, size := none }).1,
       (getattr { content_length := some 1024 }
          { info := { url := "https://ilias.example/file.pdf",
                      modification_date := 7 }, size := none }).2.1,
       0) :=
  getattr_probe_once { content_length := some 1024 } { content_length := none }
    { info := { url := "https://ilias.example/file.pdf",
                modification_date := 7 }, size := none } rfl

end IliasFuse
